import Mathlib

/-!
# TechFestBackend: the three request handlers of `server.js`

A shallow embedding of `app.post("/api/register")`, `app.post("/api/login")` and
`app.post("/api/book")` over an in-memory image of the `User` collection.

What the handlers call but the repository does not contain (the JavaScript runtime,
bcryptjs, jsonwebtoken, mongoose on top of MongoDB) is kept apart from the handlers:

* the numbers of the runtime are a type parameter `N`: a number in a request body reaches
  the handler as whatever `JSON.parse` made of it, and equality on `N` is the equality
  under which `$addToSet` treats two numbers as the same element;
* the primitives of the runtime and of the libraries are the fields of `Lib`; every
  theorem holds for all of them and states the assumption it needs about them as a
  hypothesis;
* the collection is a list of `User` documents in insertion order, and the three
  mongoose calls the handlers make are the functions `User.create`, `User.findOne` and
  `User.findByIdAndUpdate` below.

Request fields range over the scalar JSON values (`JVal`): an absent field, `null`,
booleans, numbers and strings.  Fields holding arrays or objects are outside this
development.
-/

namespace TechFest

/-! ## Values, documents, responses -/

/-- A field of `req.body` after destructuring: `undefined` when the key is absent,
otherwise the scalar JSON value that was sent.  `N` is the type of the runtime's
numbers. -/
inductive JVal (N : Type) where
  | undefined
  | null
  | bool (b : Bool)
  | num (x : N)
  | str (s : String)
  deriving DecidableEq

/-- What a rejected promise or a thrown exception carries. -/
inductive Err where
  /-- bcryptjs: `Illegal arguments` (an argument is not a string) -/
  | illegalArguments
  /-- mongoose: a value cannot be cast to the schema type -/
  | castError
  /-- mongoose: `password` is `required` -/
  | validationError
  /-- MongoDB E11000: the unique index on `entryNo` rejects the insert -/
  | duplicateKey
  /-- the store cannot be reached (server selection or buffering timeout) -/
  | storeUnreachable
  /-- jsonwebtoken: `JsonWebTokenError` or `TokenExpiredError` -/
  | jwtError
  deriving DecidableEq

/-- A document of the `User` collection (`UserSchema`, with the `_id` MongoDB adds).
`name` and `entryNo` are not `required`, so a document may lack them.  An element of
`registeredEvents` is a number or `null` (`none`), which mongoose lets into a `Number`
array. -/
structure User (N : Type) where
  id : Nat
  name : Option String
  entryNo : Option String
  password : String
  registeredEvents : List (Option N)
  deriving DecidableEq

/-- The `User` collection, in insertion order. -/
abbrev Store (N : Type) := List (User N)

/-- The JSON bodies the handlers send. -/
inductive Body (N : Type) where
  /-- the object with the single key `error` -/
  | error (msg : String)
  /-- the object with the single key `message` -/
  | message (msg : String)
  /-- the login body: `token`, `name`, `registeredEvents` -/
  | session (token : String) (name : Option String) (registeredEvents : List (Option N))
  deriving DecidableEq

/-- A response: `res.status(n).json(body)`; `res.json(body)` alone sends status 200. -/
structure Response (N : Type) where
  status : Nat
  body : Body N
  deriving DecidableEq

/-! ## The environment of a request -/

/-- The primitives of the JavaScript runtime, of bcryptjs and of jsonwebtoken that the
handlers reach, on the arguments where they compute something. -/
structure Lib (N : Type) where
  /-- JavaScript truthiness of a number: `false` on zero -/
  numberTruthy : N → Bool
  /-- The string `Number.prototype.toString` gives -/
  numberToString : N → String
  /-- The number `Number(s)` gives for a string, `none` when it is `NaN` -/
  stringToNumber : String → Option N
  /-- The number `Number(b)` gives for a boolean -/
  boolToNumber : Bool → N
  /-- What is left of an update whose value is `undefined`: nothing to add (the key is
  dropped), or the element written in its place -/
  undefinedUpdate : Option (Option N)
  /-- The value of `bcrypt.hash(s, rounds)` on a string `s`; the third argument is the
  randomness `genSalt` draws -/
  bcryptHashStr : String → Nat → Nat → String
  /-- the comparison `bcrypt.compare(s, hash)` makes once both are strings and `hash`
  has the length of a bcrypt hash; it rejects when `hash` holds no valid salt -/
  bcryptCompareStr : String → String → Except Err Bool
  /-- The token `jwt.sign` makes of the payload with the single key `id`, under a secret,
  with `expiresIn` in seconds, at a clock reading in seconds -/
  jwtSign : Nat → String → Nat → Nat → String
  /-- The outcome of `jwt.verify(token, secret)` on a string token at a clock reading: the
  `id` of the decoded payload, or `none` when verification throws -/
  jwtVerify : String → String → Nat → Option Nat

/-- The part of `process.env` the handlers read.  `JWT_SECRET` is taken to be set, so
that `jwt.sign` has a key to sign with and does not throw. -/
structure ProcessEnv where
  JWT_SECRET : String

/-- What a single request finds around it. -/
structure World where
  /-- whether the store answers -/
  dbUp : Bool
  /-- the clock, in seconds since the epoch -/
  now : Nat
  /-- the randomness bcrypt draws for the salt -/
  salt : Nat

/-- JavaScript truthiness, the test behind `!name`, `!entryNo`, `!password` and
`user && ...`: `undefined`, `null`, `false`, zero and `""` are falsy. -/
def JVal.truthy {N : Type} (L : Lib N) : JVal N → Bool
  | .undefined => false
  | .null => false
  | .bool b => b
  | .num x => L.numberTruthy x
  | .str s => decide (s ≠ "")

/-! ## bcryptjs and jsonwebtoken -/

/-- The call `bcrypt.hash(password, rounds)`: rejects unless `password` is a string. -/
def bcrypt.hash {N : Type} (L : Lib N) (w : World) (password : JVal N) (rounds : Nat) :
    Except Err String :=
  match password with
  | .str s => .ok (L.bcryptHashStr s rounds w.salt)
  | _ => .error .illegalArguments

/-- The call `bcrypt.compare(password, hash)`: rejects unless `password` is a string; answers
`false` when `hash` does not have the 60 characters of a bcrypt hash. -/
def bcrypt.compare {N : Type} (L : Lib N) (password : JVal N) (hash : String) :
    Except Err Bool :=
  match password with
  | .str s => if hash.length = 60 then L.bcryptCompareStr s hash else .ok false
  | _ => .error .illegalArguments

/-- The number of seconds `expiresIn: "24h"` stands for. -/
def expiresIn24h : Nat := 24 * 60 * 60

/-- The call `jwt.sign` on the payload holding `id`, with the option `expiresIn`, at the
clock reading of the request. -/
def jwt.sign {N : Type} (L : Lib N) (w : World) (id : Nat) (secret : String)
    (expiresIn : Nat) : String :=
  L.jwtSign id secret expiresIn w.now

/-- The call `jwt.verify(token, secret)`: throws unless `token` is a string that verifies. -/
def jwt.verify {N : Type} (L : Lib N) (w : World) (token : JVal N) (secret : String) :
    Except Err Nat :=
  match token with
  | .str t =>
    match L.jwtVerify t secret w.now with
    | some id => .ok id
    | none => .error .jwtError
  | _ => .error .jwtError

/-! ## mongoose over the collection -/

/-- Mongoose's cast to the schema type `String`, on scalars: `null` and `undefined` stay
as they are (no value), a string is itself, a number or boolean is its `toString()`. -/
def castString {N : Type} (L : Lib N) : JVal N → Option String
  | .undefined => none
  | .null => none
  | .bool b => some (if b then "true" else "false")
  | .num x => some (L.numberToString x)
  | .str s => some s

/-- Mongoose's cast of an update value for the path `registeredEvents: [Number]`, on
scalars: `null` stays `null` and `""` becomes `null`; any other string and a boolean go
through `Number(...)`, and `NaN` is a cast error; a number is itself.  The result is what
`$addToSet` is to add: an element (`some`), or nothing when the value was `undefined`
and the key was dropped. -/
def castNumber {N : Type} (L : Lib N) : JVal N → Except Err (Option (Option N))
  | .undefined => .ok L.undefinedUpdate
  | .null => .ok (some none)
  | .bool b => .ok (some (some (L.boolToNumber b)))
  | .num x => .ok (some (some x))
  | .str s =>
    if s = "" then .ok (some none)
    else
      match L.stringToNumber s with
      | none => .error .castError
      | some x => .ok (some (some x))

/-- The `_id` of a new document: distinct from every `_id` in the collection. -/
def freshId {N : Type} (s : Store N) : Nat :=
  (s.map (fun u => u.id)).foldr max 0 + 1

/-- The call `User.create` on the document with keys `name`, `entryNo`, `password`: schema
validation (`password` is `required`), then the insert, which the unique index on
`entryNo` rejects when a document with the same `entryNo` exists.  `registeredEvents`
starts as the empty array. -/
def User.create {N : Type} (L : Lib N) (w : World) (s : Store N) (name entryNo : JVal N)
    (password : String) : Except Err (User N × Store N) :=
  if password = "" then .error .validationError
  else if w.dbUp = false then .error .storeUnreachable
  else if s.any (fun u => decide (u.entryNo = castString L entryNo)) then .error .duplicateKey
  else
    let user : User N :=
      { id := freshId s, name := castString L name, entryNo := castString L entryNo,
        password := password, registeredEvents := [] }
    .ok (user, s ++ [user])

/-- The call `User.findOne` with the filter on `entryNo`: the first document whose `entryNo` is
the cast filter value, or `null`. -/
def User.findOne {N : Type} (L : Lib N) (w : World) (s : Store N) (entryNo : JVal N) :
    Except Err (Option (User N)) :=
  if w.dbUp = false then .error .storeUnreachable
  else .ok (s.find? (fun u => decide (u.entryNo = castString L entryNo)))

/-- The update operator `$addToSet` on an array field: append unless already there. -/
def addToSet {N : Type} [DecidableEq N] (xs : List (Option N)) (x : Option N) :
    List (Option N) :=
  if x ∈ xs then xs else xs ++ [x]

/-- The document `u` after `$addToSet` of `x` to its `registeredEvents`. -/
def withEvent {N : Type} [DecidableEq N] (x : Option N) (u : User N) : User N :=
  { u with registeredEvents := addToSet u.registeredEvents x }

/-- Apply `f` to the first document with the given `_id`, if there is one. -/
def updateById {N : Type} (id : Nat) (f : User N → User N) : Store N → Store N
  | [] => []
  | u :: rest => if u.id = id then f u :: rest else u :: updateById id f rest

/-- The call `User.findByIdAndUpdate(id, $addToSet registeredEvents: eventId)`: the update is
cast first, then applied to the document with that `_id`; no such document is not an
error.  The handler discards the document the call returns, so only the collection
after the call is given. -/
def User.findByIdAndUpdate {N : Type} [DecidableEq N] (L : Lib N) (w : World) (s : Store N)
    (id : Nat) (eventId : JVal N) : Except Err (Store N) :=
  match castNumber L eventId with
  | .error e => .error e
  | .ok v =>
    if w.dbUp = false then .error .storeUnreachable
    else
      match v with
      | none => .ok s
      | some x => .ok (updateById id (withEvent x) s)

/-! ## The handlers -/

/-- The destructured body of a register request. -/
structure RegisterBody (N : Type) where
  name : JVal N
  entryNo : JVal N
  password : JVal N

/-- The destructured body of a login request. -/
structure LoginBody (N : Type) where
  entryNo : JVal N
  password : JVal N

/-- The destructured body of a book request. -/
structure BookBody (N : Type) where
  token : JVal N
  eventId : JVal N

/-- The handler of `app.post("/api/register")`: the response and the collection after.
The `try` block is the chain of `.ok` branches; every `.error` branch is its `catch`. -/
def register {N : Type} (L : Lib N) (w : World) (s : Store N) (body : RegisterBody N) :
    Response N × Store N :=
  if !body.name.truthy L || !body.entryNo.truthy L || !body.password.truthy L then
    (⟨400, .error "All fields required"⟩, s)
  else
    match bcrypt.hash L w body.password 10 with
    | .error _ => (⟨400, .error "Entry No already exists"⟩, s)
    | .ok hashedPassword =>
      match User.create L w s body.name body.entryNo hashedPassword with
      | .error _ => (⟨400, .error "Entry No already exists"⟩, s)
      | .ok (_, s') => (⟨201, .message "User Created"⟩, s')

/-- The handler of `app.post("/api/login")`.  A `null` user short-circuits `user && ...`
into the `else` branch; an exception of `findOne` or `bcrypt.compare` reaches `catch`. -/
def login {N : Type} (L : Lib N) (penv : ProcessEnv) (w : World) (s : Store N)
    (body : LoginBody N) : Response N × Store N :=
  match User.findOne L w s body.entryNo with
  | .error _ => (⟨500, .error "Server error"⟩, s)
  | .ok none => (⟨401, .error "Invalid Credentials"⟩, s)
  | .ok (some user) =>
    match bcrypt.compare L body.password user.password with
    | .error _ => (⟨500, .error "Server error"⟩, s)
    | .ok false => (⟨401, .error "Invalid Credentials"⟩, s)
    | .ok true =>
      let token := jwt.sign L w user.id penv.JWT_SECRET expiresIn24h
      (⟨200, .session token user.name user.registeredEvents⟩, s)

/-- The handler of `app.post("/api/book")`.  One `catch` serves both `jwt.verify` and the
update. -/
def book {N : Type} [DecidableEq N] (L : Lib N) (penv : ProcessEnv) (w : World) (s : Store N)
    (body : BookBody N) : Response N × Store N :=
  match jwt.verify L w body.token penv.JWT_SECRET with
  | .error _ => (⟨401, .error "Unauthorized or Session Expired"⟩, s)
  | .ok decodedId =>
    match User.findByIdAndUpdate L w s decodedId body.eventId with
    | .error _ => (⟨401, .error "Unauthorized or Session Expired"⟩, s)
    | .ok s' => (⟨200, .message "Registered Successfully"⟩, s')

/-! ## A concrete library

An instance of `Lib`, with the integers for numbers, on which the handlers can be
evaluated. -/

/-- Split off the leading run of the character `c`: its length and what follows. -/
def spanCount (c : Char) : List Char → Nat × List Char
  | [] => (0, [])
  | x :: xs => if x = c then ((spanCount c xs).1 + 1, (spanCount c xs).2) else (0, x :: xs)

/-- The value of a decimal digit, `none` for any other character. -/
def digitValue (c : Char) : Option Int :=
  if c = '0' then some 0 else if c = '1' then some 1 else if c = '2' then some 2
  else if c = '3' then some 3 else if c = '4' then some 4 else if c = '5' then some 5
  else if c = '6' then some 6 else if c = '7' then some 7 else if c = '8' then some 8
  else if c = '9' then some 9 else none

/-- Read a run of decimal digits onto the accumulator; no number on any other character. -/
def readDigits (acc : Int) : List Char → Option Int
  | [] => some acc
  | c :: cs =>
    match digitValue c with
    | none => none
    | some d => readDigits (10 * acc + d) cs

/-- The number a string of decimal digits denotes; this sample takes every other string
for `NaN`. -/
def sampleNumber (s : String) : Option Int :=
  readDigits 0 s.data

/-- A 60-character digest of a password (the salt is not used). -/
def sampleHash (p : String) : String :=
  String.mk (('$' :: p.data ++ List.replicate 60 '.').take 60)

/-- A token: `id` times `i`, then expiry-time times `e`, then `#` and the secret. -/
def sampleSign (id : Nat) (secret : String) (expiresIn now : Nat) : String :=
  String.mk (List.replicate id 'i' ++ (List.replicate (now + expiresIn) 'e' ++ '#' :: secret.data))

/-- Read a token back: it verifies when it ends in `#` and the secret and has not expired. -/
def sampleVerify (token secret : String) (now : Nat) : Option Nat :=
  let r1 := spanCount 'i' token.data
  let r2 := spanCount 'e' r1.2
  if r2.2 = '#' :: secret.data ∧ now < r2.1 then some r1.1 else none

/-- The concrete library. -/
def sampleLib : Lib Int where
  numberTruthy := fun n => decide (n ≠ 0)
  numberToString := fun n => toString n
  stringToNumber := sampleNumber
  boolToNumber := fun b => if b then 1 else 0
  undefinedUpdate := none
  bcryptHashStr := fun p _ _ => sampleHash p
  bcryptCompareStr := fun p h => .ok (decide (h = sampleHash p))
  jwtSign := sampleSign
  jwtVerify := sampleVerify

/-- A collection holding the one user Alice, with no event. -/
def aliceOnly : Store Int :=
  [⟨1, some "Alice", some "E1", sampleHash "pw", []⟩]

/-! ## Predicates on the collection -/

/-- No two documents share an `_id` (MongoDB's index on `_id`). -/
def idsDistinct {N : Type} (s : Store N) : Prop :=
  (s.map (fun u => u.id)).Nodup

/-- The invariant of the data model: `entryNo` is unique across the documents, no
`registeredEvents` array repeats a value, and every `password` is an output of the
hashing the register handler applies (`bcrypt.hash` with 10 rounds). -/
def StoreInv {N : Type} (L : Lib N) (s : Store N) : Prop :=
  (s.map (fun u => u.entryNo)).Nodup ∧
  ∀ u ∈ s, u.registeredEvents.Nodup ∧ ∃ p salt, u.password = L.bcryptHashStr p 10 salt

/-- The document `u'` is `u` later on: same `_id`, `name`, `entryNo` and `password`,
and every event of `u` is still registered. -/
def Grows {N : Type} (u u' : User N) : Prop :=
  u'.id = u.id ∧ u'.name = u.name ∧ u'.entryNo = u.entryNo ∧ u'.password = u.password ∧
    u.registeredEvents ⊆ u'.registeredEvents

/-- The collection `s'` keeps every document of `s`, in place and grown, and may hold
new documents after them. -/
def Extends {N : Type} (s s' : Store N) : Prop :=
  ∃ kept added, s' = kept ++ added ∧ List.Forall₂ Grows s kept

/-! ## Lemmas on the collection operations -/

theorem addToSet_mem {N : Type} [DecidableEq N] (xs : List (Option N)) (x : Option N) :
    x ∈ addToSet xs x := by
  unfold addToSet
  split <;> simp_all

theorem addToSet_subset {N : Type} [DecidableEq N] (xs : List (Option N)) (x : Option N) :
    xs ⊆ addToSet xs x := by
  unfold addToSet
  split
  · exact fun _ h => h
  · exact List.subset_append_left xs [x]

theorem addToSet_nodup {N : Type} [DecidableEq N] {xs : List (Option N)} (x : Option N)
    (h : xs.Nodup) : (addToSet xs x).Nodup := by
  unfold addToSet
  split
  · exact h
  · rename_i hn
    rw [List.nodup_append]
    refine ⟨h, List.nodup_singleton x, ?_⟩
    intro a ha hb
    rw [List.mem_singleton] at hb
    subst hb
    exact hn ha

theorem addToSet_idem {N : Type} [DecidableEq N] (xs : List (Option N)) (x : Option N) :
    addToSet (addToSet xs x) x = addToSet xs x := by
  have h := addToSet_mem xs x
  rw [addToSet, if_pos h]

theorem withEvent_idem {N : Type} [DecidableEq N] (x : Option N) (u : User N) :
    withEvent x (withEvent x u) = withEvent x u := by
  simp [withEvent, addToSet_idem]

theorem grows_refl {N : Type} (u : User N) : Grows u u :=
  ⟨rfl, rfl, rfl, rfl, fun _ h => h⟩

theorem grows_withEvent {N : Type} [DecidableEq N] (x : Option N) (u : User N) :
    Grows u (withEvent x u) :=
  ⟨rfl, rfl, rfl, rfl, addToSet_subset u.registeredEvents x⟩

theorem extends_refl {N : Type} (s : Store N) : Extends s s :=
  ⟨s, [], by simp, List.forall₂_same.mpr (fun u _ => grows_refl u)⟩

/-- On a collection with distinct `_id`s, updating by `_id` is a map over the documents. -/
theorem updateById_eq_map {N : Type} (id : Nat) (f : User N → User N) (s : Store N)
    (hd : idsDistinct s) :
    updateById id f s = s.map (fun u => if u.id = id then f u else u) := by
  induction s with
  | nil => rfl
  | cons u rest ih =>
    have hd2 : u.id ∉ rest.map (fun u => u.id) ∧ idsDistinct rest := by
      simpa [idsDistinct] using hd
    by_cases hu : u.id = id
    · have hrest : rest.map (fun v => if v.id = id then f v else v) = rest := by
        conv_rhs => rw [← List.map_id rest]
        apply List.map_congr_left
        intro v hv
        have hne : v.id ≠ id := by
          intro hv2
          apply hd2.1
          rw [hu, ← hv2]
          exact List.mem_map_of_mem (fun u => u.id) hv
        simp [hne]
      simp [updateById, hu, hrest]
    · simp [updateById, hu, ih hd2.2]

/-- Updating by `_id` changes, in place, at most documents with that `_id`. -/
theorem updateById_forall2 {N : Type} (id : Nat) (f : User N → User N) (s : Store N) :
    List.Forall₂ (fun u u' => u' = u ∨ (u.id = id ∧ u' = f u)) s (updateById id f s) := by
  induction s with
  | nil => exact List.Forall₂.nil
  | cons u rest ih =>
    by_cases hu : u.id = id
    · simp only [updateById, hu, if_true]
      exact List.Forall₂.cons (Or.inr ⟨hu, rfl⟩) (List.forall₂_same.mpr (fun _ _ => Or.inl rfl))
    · simp only [updateById, hu, if_false]
      exact List.Forall₂.cons (Or.inl rfl) ih

theorem updateById_idem {N : Type} (id : Nat) (f : User N → User N) (s : Store N)
    (hid : ∀ u, (f u).id = u.id) (hf : ∀ u, f (f u) = f u) :
    updateById id f (updateById id f s) = updateById id f s := by
  induction s with
  | nil => rfl
  | cons u rest ih =>
    by_cases hu : u.id = id
    · simp [updateById, hu, hid, hf]
    · simp [updateById, hu, ih]

theorem updateById_map {N : Type} (g : User N → Option String) (id : Nat)
    (f : User N → User N) (hg : ∀ u, g (f u) = g u) (s : Store N) :
    (updateById id f s).map g = s.map g := by
  induction s with
  | nil => rfl
  | cons u rest ih =>
    by_cases hu : u.id = id
    · simp [updateById, hu, hg]
    · simp [updateById, hu, ih]

theorem mem_updateById {N : Type} {id : Nat} {f : User N → User N} {s : Store N} {v : User N}
    (h : v ∈ updateById id f s) : v ∈ s ∨ ∃ u ∈ s, v = f u := by
  induction s with
  | nil => simp [updateById] at h
  | cons u rest ih =>
    by_cases hu : u.id = id
    · simp only [updateById, hu, if_true, List.mem_cons] at h
      rcases h with h | h
      · exact Or.inr ⟨u, List.mem_cons_self u rest, h⟩
      · exact Or.inl (List.mem_cons_of_mem u h)
    · simp only [updateById, hu, if_false, List.mem_cons] at h
      rcases h with h | h
      · exact Or.inl (h ▸ List.mem_cons_self u rest)
      · rcases ih h with h2 | ⟨x, hx, hx2⟩
        · exact Or.inl (List.mem_cons_of_mem u h2)
        · exact Or.inr ⟨x, List.mem_cons_of_mem u hx, hx2⟩

theorem countP_eq_one {α : Type} [DecidableEq α] {l : List α} {a : α} (hnd : l.Nodup)
    (ha : a ∈ l) : l.countP (fun y => decide (y = a)) = 1 := by
  induction l with
  | nil => simp at ha
  | cons b t ih =>
    rw [List.nodup_cons] at hnd
    by_cases hba : b = a
    · subst hba
      have h0 : t.countP (fun y => decide (y = b)) = 0 := by
        rw [List.countP_eq_zero]
        intro y hy
        simp only [decide_eq_true_eq]
        intro hyb
        exact hnd.1 (hyb ▸ hy)
      simp [List.countP_cons, h0]
    · have hat : a ∈ t := by
        rcases List.mem_cons.mp ha with h | h
        · exact absurd h.symm hba
        · exact h
      simp [List.countP_cons, hba, ih hnd.2 hat]

theorem eq_of_id_eq {N : Type} {s : Store N} (hd : idsDistinct s) {u v : User N}
    (hu : u ∈ s) (hv : v ∈ s) (h : v.id = u.id) : v = u :=
  List.inj_on_of_nodup_map hd hv hu h

theorem storeInv_updateById {N : Type} [DecidableEq N] (L : Lib N) (id : Nat) (x : Option N)
    (s : Store N) (h : StoreInv L s) : StoreInv L (updateById id (withEvent x) s) := by
  refine ⟨?_, ?_⟩
  · rw [updateById_map (fun u => u.entryNo) id (withEvent x) (fun _ => rfl)]
    exact h.1
  · intro v hv
    rcases mem_updateById hv with hv | ⟨u, hu, rfl⟩
    · exact h.2 v hv
    · exact ⟨addToSet_nodup x (h.2 u hu).1, (h.2 u hu).2⟩

/-! ## The shape of a handler's result -/

/-- A register request either answers 400 and leaves the collection as it was, or
answers 201 and appends one document built from the request. -/
theorem register_cases {N : Type} (L : Lib N) (w : World) (s : Store N)
    (body : RegisterBody N) :
    (∃ msg, register L w s body = (⟨400, .error msg⟩, s)) ∨
    (∃ p, body.password = .str p ∧ body.name.truthy L = true ∧ body.entryNo.truthy L = true ∧
      w.dbUp = true ∧ (∀ u ∈ s, u.entryNo ≠ castString L body.entryNo) ∧
      register L w s body = (⟨201, .message "User Created"⟩,
        s ++ [{ id := freshId s, name := castString L body.name,
                entryNo := castString L body.entryNo,
                password := L.bcryptHashStr p 10 w.salt, registeredEvents := [] }])) := by
  unfold register
  split
  · exact Or.inl ⟨_, rfl⟩
  · rename_i hguard
    simp only [Bool.or_eq_true, Bool.not_eq_true', not_or, Bool.not_eq_false] at hguard
    obtain ⟨⟨hn, he⟩, hp⟩ := hguard
    cases hpw : body.password with
    | str p =>
      simp only [bcrypt.hash, User.create]
      by_cases h1 : L.bcryptHashStr p 10 w.salt = ""
      · simp [h1]
      · by_cases h2 : w.dbUp = false
        · simp [h1, h2]
        · by_cases h3 : (s.any (fun u => decide (u.entryNo = castString L body.entryNo))) = true
          · simp [h1, h2, h3]
          · refine Or.inr ⟨p, rfl, hn, he, by simpa using h2, ?_, ?_⟩
            · intro u hu heq
              apply h3
              rw [List.any_eq_true]
              exact ⟨u, hu, by simpa using heq⟩
            · simp [h1, h2, h3]
    | undefined => simp [bcrypt.hash]
    | null => simp [bcrypt.hash]
    | bool b => simp [bcrypt.hash]
    | num n => simp [bcrypt.hash]

/-- The login handler never writes. -/
theorem login_store {N : Type} (L : Lib N) (penv : ProcessEnv) (w : World) (s : Store N)
    (body : LoginBody N) : (login L penv w s body).2 = s := by
  unfold login
  split
  · rfl
  · rfl
  · split <;> rfl

/-- A book request either answers 401 and leaves the collection as it was, or its token
verified, the store answered, and it answers 200 after updating by the decoded `_id`. -/
theorem book_cases {N : Type} [DecidableEq N] (L : Lib N) (penv : ProcessEnv) (w : World)
    (s : Store N) (body : BookBody N) :
    book L penv w s body = (⟨401, .error "Unauthorized or Session Expired"⟩, s) ∨
    (∃ id, jwt.verify L w body.token penv.JWT_SECRET = .ok id ∧ w.dbUp = true ∧
      (book L penv w s body = (⟨200, .message "Registered Successfully"⟩, s) ∨
       ∃ x, castNumber L body.eventId = .ok (some x) ∧
         book L penv w s body =
           (⟨200, .message "Registered Successfully"⟩, updateById id (withEvent x) s))) := by
  unfold book
  cases hv : jwt.verify L w body.token penv.JWT_SECRET with
  | error e => exact Or.inl rfl
  | ok id =>
    simp only [User.findByIdAndUpdate]
    cases hc : castNumber L body.eventId with
    | error e => exact Or.inl rfl
    | ok v =>
      by_cases hup : w.dbUp = false
      · simp [hup]
      · cases v with
        | none => exact Or.inr ⟨id, rfl, by simpa using hup, Or.inl (by simp [hup])⟩
        | some x => exact Or.inr ⟨id, rfl, by simpa using hup, Or.inr ⟨x, rfl, by simp [hup]⟩⟩

/-- A book request whose token does not verify. -/
theorem book_of_verify_error {N : Type} [DecidableEq N] (L : Lib N) (penv : ProcessEnv)
    (w : World) (s : Store N) (body : BookBody N) (e : Err)
    (h : jwt.verify L w body.token penv.JWT_SECRET = .error e) :
    book L penv w s body = (⟨401, .error "Unauthorized or Session Expired"⟩, s) := by
  simp [book, h]

/-- A book request with a verifying token and an `eventId` that casts to an element, on a
store that answers. -/
theorem book_ok {N : Type} [DecidableEq N] (L : Lib N) (penv : ProcessEnv) (w : World)
    (s : Store N) (tok eventId : JVal N) (x : Option N) (id : Nat)
    (hv : jwt.verify L w tok penv.JWT_SECRET = .ok id) (hup : w.dbUp = true)
    (hc : castNumber L eventId = .ok (some x)) :
    book L penv w s ⟨tok, eventId⟩ =
      (⟨200, .message "Registered Successfully"⟩, updateById id (withEvent x) s) := by
  simp [book, hv, User.findByIdAndUpdate, hc, hup]

theorem spanCount_replicate (c : Char) (k : Nat) (rest : List Char)
    (h : ∀ x xs, rest = x :: xs → x ≠ c) :
    spanCount c (List.replicate k c ++ rest) = (k, rest) := by
  induction k with
  | zero =>
    cases rest with
    | nil => rfl
    | cons x xs => simp [spanCount, h x xs rfl]
  | succ k ih => simp [List.replicate_succ, spanCount, ih]

/-- A book request on a store that does not answer. -/
theorem book_store_down {N : Type} [DecidableEq N] (L : Lib N) (penv : ProcessEnv) (w : World)
    (s : Store N) (body : BookBody N) (h : w.dbUp = false) :
    book L penv w s body = (⟨401, .error "Unauthorized or Session Expired"⟩, s) := by
  rcases book_cases L penv w s body with h401 | ⟨_, _, hup, _⟩
  · exact h401
  · rw [h] at hup
    exact absurd hup (by decide)

/-- A book request whose `eventId` mongoose cannot cast. -/
theorem book_cast_error {N : Type} [DecidableEq N] (L : Lib N) (penv : ProcessEnv) (w : World)
    (s : Store N) (body : BookBody N) (e : Err) (h : castNumber L body.eventId = .error e) :
    book L penv w s body = (⟨401, .error "Unauthorized or Session Expired"⟩, s) := by
  unfold book
  split
  · rfl
  · simp [User.findByIdAndUpdate, h]

theorem jwt_verify_str {N : Type} (L : Lib N) (w : World) (t secret : String) (id : Nat)
    (h : L.jwtVerify t secret w.now = some id) :
    jwt.verify L w (.str t) secret = .ok id := by
  simp [jwt.verify, h]

/-- The concrete library honours the contract of jsonwebtoken: a signed token verifies
under the same secret, to the signed `id`, until its expiry time. -/
theorem sampleVerify_sampleSign (id : Nat) (secret : String) (expiresIn t now : Nat) :
    sampleVerify (sampleSign id secret expiresIn t) secret now =
      if now < t + expiresIn then some id else none := by
  have h1 : spanCount 'i'
      (List.replicate id 'i' ++ (List.replicate (t + expiresIn) 'e' ++ '#' :: secret.data)) =
      (id, List.replicate (t + expiresIn) 'e' ++ '#' :: secret.data) := by
    apply spanCount_replicate
    intro x xs hx
    cases hk : t + expiresIn with
    | zero =>
      rw [hk] at hx
      simp at hx
      rw [← hx.1]
      decide
    | succ k =>
      rw [hk] at hx
      simp [List.replicate_succ] at hx
      rw [← hx.1]
      decide
  have h2 : spanCount 'e' (List.replicate (t + expiresIn) 'e' ++ '#' :: secret.data) =
      (t + expiresIn, '#' :: secret.data) := by
    apply spanCount_replicate
    intro x xs hx
    simp at hx
    rw [← hx.1]
    decide
  simp [sampleVerify, sampleSign, h1, h2]

theorem sampleLib_jwt (id : Nat) (secret : String) (expiresIn t now : Nat) :
    sampleLib.jwtVerify (sampleLib.jwtSign id secret expiresIn t) secret now =
      if now < t + expiresIn then some id else none :=
  sampleVerify_sampleSign id secret expiresIn t now

theorem aliceOnly_inv : StoreInv sampleLib aliceOnly :=
  ⟨by simp [aliceOnly], fun u hu => by
    rw [aliceOnly, List.mem_singleton] at hu
    subst hu
    exact ⟨List.nodup_nil, "pw", 0, rfl⟩⟩

/-! ## Registration: validation -/

/-- C7: a register request in which `name`, `entryNo` or `password` is absent is answered
400 with the error "All fields required" and leaves the collection unchanged; the outcome
is the same under every library and environment, so neither hashing nor an insert plays
a part in it. -/
theorem register_absent_field {N : Type} (L : Lib N) (w : World) (s : Store N)
    (body : RegisterBody N)
    (h : body.name = .undefined ∨ body.entryNo = .undefined ∨ body.password = .undefined) :
    register L w s body = (⟨400, .error "All fields required"⟩, s) ∧
    ∀ (L2 : Lib N) (w2 : World), register L2 w2 s body = register L w s body := by
  have key : ∀ (L2 : Lib N) (w2 : World),
      register L2 w2 s body = (⟨400, .error "All fields required"⟩, s) := by
    intro L2 w2
    unfold register
    rcases h with h | h | h <;> simp [h, JVal.truthy]
  exact ⟨key L w, fun L2 w2 => (key L2 w2).trans (key L w).symm⟩

theorem register_absent_field_witness :
    (((JVal.undefined : JVal Int) = JVal.undefined ∨
        (JVal.str "E1" : JVal Int) = JVal.undefined ∨
        (JVal.str "pw" : JVal Int) = JVal.undefined) ∧
      register sampleLib ⟨true, 0, 0⟩ [] ⟨.undefined, .str "E1", .str "pw"⟩ =
        (⟨400, .error "All fields required"⟩, [])) :=
  ⟨Or.inl rfl,
    (register_absent_field sampleLib ⟨true, 0, 0⟩ [] ⟨.undefined, .str "E1", .str "pw"⟩
      (Or.inl rfl)).1⟩

/-! ## Booking -/

/-- C3: a book request whose token fails verification (it is not a string, is malformed,
is not signed with the secret, or has expired) is answered 401 with the error
"Unauthorized or Session Expired", and the collection after the request is the collection
before it. -/
theorem book_bad_token {N : Type} [DecidableEq N] (L : Lib N) (penv : ProcessEnv) (w : World)
    (s : Store N) (body : BookBody N)
    (h : ∃ e, jwt.verify L w body.token penv.JWT_SECRET = .error e) :
    book L penv w s body = (⟨401, .error "Unauthorized or Session Expired"⟩, s) := by
  obtain ⟨e, he⟩ := h
  exact book_of_verify_error L penv w s body e he

theorem book_bad_token_witness :
    ((∃ e, jwt.verify sampleLib ⟨true, 1, 0⟩ (.str "ieee#forged") "s3cret" = .error e) ∧
      book sampleLib ⟨"s3cret"⟩ ⟨true, 1, 0⟩
          [⟨1, some "Alice", some "E1", sampleHash "pw", []⟩] ⟨.str "ieee#forged", .num 7⟩ =
        (⟨401, .error "Unauthorized or Session Expired"⟩,
          [⟨1, some "Alice", some "E1", sampleHash "pw", []⟩])) :=
  ⟨⟨.jwtError, rfl⟩,
    book_bad_token sampleLib ⟨"s3cret"⟩ ⟨true, 1, 0⟩
      [⟨1, some "Alice", some "E1", sampleHash "pw", []⟩] ⟨.str "ieee#forged", .num 7⟩
      ⟨.jwtError, rfl⟩⟩

/-- C4, as the code has it: booking is idempotent while the store answers.  On a
collection with distinct `_id`s whose document `u` has no repeated event, with a token
that verifies to the `_id` of `u` at both requests and a store that answers both, booking
the number `x` twice in succession is answered 200 both times, the collection after the
second booking is the collection after the first, the document with the `_id` of `u` is
then `u` with `x` added, and `x` occurs in its `registeredEvents` exactly once. -/
theorem book_twice {N : Type} [DecidableEq N] (L : Lib N) (penv : ProcessEnv) (w1 w2 : World)
    (s s1 s2 : Store N) (r1 r2 : Response N) (u : User N) (tok : JVal N) (x : N)
    (hids : idsDistinct s) (hu : u ∈ s) (hnd : u.registeredEvents.Nodup)
    (hup1 : w1.dbUp = true) (hup2 : w2.dbUp = true)
    (hv1 : jwt.verify L w1 tok penv.JWT_SECRET = .ok u.id)
    (hv2 : jwt.verify L w2 tok penv.JWT_SECRET = .ok u.id)
    (h1 : book L penv w1 s ⟨tok, .num x⟩ = (r1, s1))
    (h2 : book L penv w2 s1 ⟨tok, .num x⟩ = (r2, s2)) :
    r1 = ⟨200, .message "Registered Successfully"⟩ ∧
    r2 = ⟨200, .message "Registered Successfully"⟩ ∧
    s2 = s1 ∧
    withEvent (some x) u ∈ s2 ∧ (∀ v ∈ s2, v.id = u.id → v = withEvent (some x) u) ∧
    (withEvent (some x) u).registeredEvents.countP (fun y => decide (y = some x)) = 1 := by
  rw [book_ok L penv w1 s tok (.num x) (some x) u.id hv1 hup1 rfl] at h1
  rw [book_ok L penv w2 s1 tok (.num x) (some x) u.id hv2 hup2 rfl] at h2
  injection h1 with hr1 hs1
  injection h2 with hr2 hs2
  have hs21 : s2 = s1 := by
    rw [← hs2, ← hs1]
    exact updateById_idem u.id (withEvent (some x)) s (fun _ => rfl) (withEvent_idem (some x))
  have hmap := updateById_eq_map u.id (withEvent (some x)) s hids
  refine ⟨hr1.symm, hr2.symm, hs21, ?_, ?_, ?_⟩
  · rw [hs21, ← hs1, hmap, List.mem_map]
    exact ⟨u, hu, by simp⟩
  · intro v hv hvid
    rw [hs21, ← hs1, hmap, List.mem_map] at hv
    obtain ⟨y, hy, hyv⟩ := hv
    by_cases hyu : y.id = u.id
    · rw [if_pos hyu] at hyv
      rw [← hyv, eq_of_id_eq hids hu hy hyu]
    · rw [if_neg hyu] at hyv
      rw [← hyv] at hvid
      exact absurd hvid hyu
  · exact countP_eq_one (addToSet_nodup (some x) hnd) (addToSet_mem _ (some x))

theorem book_twice_witness :
    (book sampleLib ⟨"s3cret"⟩ ⟨true, 1, 0⟩
        [⟨1, some "Alice", some "E1", sampleHash "pw", []⟩] ⟨.str "ieee#s3cret", .num 7⟩ =
      (⟨200, .message "Registered Successfully"⟩,
        [⟨1, some "Alice", some "E1", sampleHash "pw", [some 7]⟩])) ∧
    (book sampleLib ⟨"s3cret"⟩ ⟨true, 2, 0⟩
        [⟨1, some "Alice", some "E1", sampleHash "pw", [some 7]⟩]
        ⟨.str "ieee#s3cret", .num 7⟩ =
      (⟨200, .message "Registered Successfully"⟩,
        [⟨1, some "Alice", some "E1", sampleHash "pw", [some 7]⟩])) ∧
    (withEvent (some (7 : Int))
        ⟨1, some "Alice", some "E1", sampleHash "pw", []⟩).registeredEvents.countP
      (fun y => decide (y = some 7)) = 1 :=
  ⟨by decide, by decide,
    (book_twice sampleLib ⟨"s3cret"⟩ ⟨true, 1, 0⟩ ⟨true, 2, 0⟩
      [⟨1, some "Alice", some "E1", sampleHash "pw", []⟩]
      [⟨1, some "Alice", some "E1", sampleHash "pw", [some 7]⟩]
      [⟨1, some "Alice", some "E1", sampleHash "pw", [some 7]⟩]
      ⟨200, .message "Registered Successfully"⟩ ⟨200, .message "Registered Successfully"⟩
      ⟨1, some "Alice", some "E1", sampleHash "pw", []⟩ (.str "ieee#s3cret") 7
      (by simp [idsDistinct]) (by simp) (by simp) rfl rfl rfl rfl
      (by decide) (by decide)).2.2.2.2.2⟩

/-- C4 as stated fails on a store that does not answer: the collection has distinct
`_id`s, Alice is in it with no event, the token verifies to her `_id` and the `eventId` is
the integer 7, yet the booking is answered 401 and her `registeredEvents` stays empty. -/
theorem book_unreachable_store :
    idsDistinct aliceOnly ∧
    (⟨1, some "Alice", some "E1", sampleHash "pw", []⟩ : User Int) ∈ aliceOnly ∧
    jwt.verify sampleLib ⟨false, 1, 0⟩ (.str "ieee#s3cret") "s3cret" = .ok 1 ∧
    book sampleLib ⟨"s3cret"⟩ ⟨false, 1, 0⟩ aliceOnly ⟨.str "ieee#s3cret", .num 7⟩ =
      (⟨401, .error "Unauthorized or Session Expired"⟩, aliceOnly) :=
  ⟨by simp [idsDistinct, aliceOnly], by simp [aliceOnly], rfl, by decide⟩

/-! ## Registration: duplicates, and the round trip with login -/

/-- C5: on a collection that holds a document with `entryNo` `e`, every register request
with `entryNo` `e`, whatever its `name` and `password`, is answered 400 with an error body
and leaves the collection unchanged; so after a registration of `e` answered 201 on a
collection without `e`, a second registration of `e` is answered 400 and changes
nothing. -/
theorem register_duplicate {N : Type} (L : Lib N) (e : String) :
    (∀ (w : World) (s : Store N) (body : RegisterBody N),
        body.entryNo = .str e → (∃ u ∈ s, u.entryNo = some e) →
        ∃ msg, register L w s body = (⟨400, .error msg⟩, s)) ∧
    (∀ (w1 w2 : World) (s : Store N) (b1 b2 : RegisterBody N),
        b1.entryNo = .str e → b2.entryNo = .str e → (∀ u ∈ s, u.entryNo ≠ some e) →
        (register L w1 s b1).1.status = 201 →
        ∃ msg, register L w2 (register L w1 s b1).2 b2 =
          (⟨400, .error msg⟩, (register L w1 s b1).2)) := by
  have part1 : ∀ (w : World) (s : Store N) (body : RegisterBody N),
      body.entryNo = .str e → (∃ u ∈ s, u.entryNo = some e) →
      ∃ msg, register L w s body = (⟨400, .error msg⟩, s) := by
    intro w s body hb hex
    rcases register_cases L w s body with h | ⟨p, _, _, _, _, hfresh, _⟩
    · exact h
    · obtain ⟨u, hu, hue⟩ := hex
      exact absurd (by rw [hue, hb]; rfl) (hfresh u hu)
  refine ⟨part1, ?_⟩
  intro w1 w2 s b1 b2 hb1 hb2 _ h201
  rcases register_cases L w1 s b1 with ⟨msg, h⟩ | ⟨p, _, _, _, _, _, h⟩
  · rw [h] at h201
    simp at h201
  · rw [h]
    apply part1 w2 _ b2 hb2
    refine ⟨_, List.mem_append_right s (List.mem_singleton_self _), ?_⟩
    rw [hb1]
    rfl

theorem register_duplicate_witness :
    (∃ msg, register sampleLib ⟨true, 0, 0⟩
        [⟨1, some "Alice", some "E1", sampleHash "pw", []⟩] ⟨.str "Mallory", .str "E1", .num 5⟩ =
      (⟨400, .error msg⟩, [⟨1, some "Alice", some "E1", sampleHash "pw", []⟩])) ∧
    (register sampleLib ⟨true, 0, 0⟩ [] ⟨.str "Alice", .str "E1", .str "pw"⟩).1.status = 201 ∧
    (∃ msg, register sampleLib ⟨true, 5, 1⟩
        (register sampleLib ⟨true, 0, 0⟩ [] ⟨.str "Alice", .str "E1", .str "pw"⟩).2
        ⟨.str "Bob", .str "E1", .str "other"⟩ =
      (⟨400, .error msg⟩,
        (register sampleLib ⟨true, 0, 0⟩ [] ⟨.str "Alice", .str "E1", .str "pw"⟩).2)) :=
  ⟨(register_duplicate sampleLib "E1").1 ⟨true, 0, 0⟩
      [⟨1, some "Alice", some "E1", sampleHash "pw", []⟩] ⟨.str "Mallory", .str "E1", .num 5⟩
      rfl ⟨_, List.mem_singleton_self _, rfl⟩,
    by decide,
    (register_duplicate sampleLib "E1").2 ⟨true, 0, 0⟩ ⟨true, 5, 1⟩ []
      ⟨.str "Alice", .str "E1", .str "pw"⟩ ⟨.str "Bob", .str "E1", .str "other"⟩ rfl rfl
      (fun _ h => absurd h (List.not_mem_nil _)) (by decide)⟩

/-- C1, as the code has it: on a store that answers and holds no document with `entryNo`
`e`, a register request with a non-empty (truthy) `name`, the non-empty string `e` for
`entryNo` and the non-empty string `p` for `password` is answered 201 and appends exactly
one document, the only one for `e`; a login with `e` and `p` on the resulting collection,
the store still answering, is then answered 200 with a token, the registered name and an
empty `registeredEvents` list, given that `bcrypt.compare` accepts `p` against the stored
hash of `p`. -/
theorem register_then_login {N : Type} (L : Lib N) (penv : ProcessEnv) (w1 w2 : World)
    (s : Store N) (name : JVal N) (e p : String)
    (hname : name.truthy L = true) (he : e ≠ "") (hp : p ≠ "")
    (hfresh : ∀ u ∈ s, u.entryNo ≠ some e)
    (hup1 : w1.dbUp = true) (hup2 : w2.dbUp = true)
    (hacc : bcrypt.compare L (.str p) (L.bcryptHashStr p 10 w1.salt) = .ok true) :
    ∃ u, register L w1 s ⟨name, .str e, .str p⟩ =
        (⟨201, .message "User Created"⟩, s ++ [u]) ∧
      u.name = castString L name ∧ u.entryNo = some e ∧ u.registeredEvents = [] ∧
      (s ++ [u]).filter (fun v => decide (v.entryNo = some e)) = [u] ∧
      ∃ tok, login L penv w2 (s ++ [u]) ⟨.str e, .str p⟩ =
        (⟨200, .session tok (castString L name) []⟩, s ++ [u]) := by
  have hlen : (L.bcryptHashStr p 10 w1.salt).length = 60 := by
    by_contra hne
    simp [bcrypt.compare, hne] at hacc
  have hne : L.bcryptHashStr p 10 w1.salt ≠ "" := by
    intro h0
    rw [h0] at hlen
    exact absurd hlen (by decide)
  have hany : s.any (fun u => decide (u.entryNo = some e)) = false := by
    rw [List.any_eq_false]
    intro u hu
    simpa using hfresh u hu
  have hfind : s.find? (fun u => decide (u.entryNo = some e)) = none := by
    rw [List.find?_eq_none]
    intro u hu
    simpa using hfresh u hu
  have hfilter : s.filter (fun u => decide (u.entryNo = some e)) = [] := by
    rw [List.filter_eq_nil_iff]
    intro u hu
    simpa using hfresh u hu
  refine ⟨{ id := freshId s, name := castString L name, entryNo := some e,
            password := L.bcryptHashStr p 10 w1.salt, registeredEvents := [] },
          ?_, rfl, rfl, rfl, ?_, ?_⟩
  · have hte : (JVal.str e : JVal N).truthy L = true := by simp [JVal.truthy, he]
    have htp : (JVal.str p : JVal N).truthy L = true := by simp [JVal.truthy, hp]
    simp [register, hname, hte, htp, bcrypt.hash, User.create, hne, hup1, castString, hany]
  · simp [List.filter_append, hfilter]
  · refine ⟨jwt.sign L w2 (freshId s) penv.JWT_SECRET expiresIn24h, ?_⟩
    simp [login, User.findOne, hup2, castString, List.find?_append, hfind, hacc]

theorem register_then_login_witness :
    ∃ u, register sampleLib ⟨true, 0, 0⟩ [] ⟨.str "Alice", .str "E1", .str "pw"⟩ =
        (⟨201, .message "User Created"⟩, [] ++ [u]) ∧
      u.name = castString sampleLib (.str "Alice") ∧ u.entryNo = some "E1" ∧
      u.registeredEvents = [] ∧
      ([] ++ [u]).filter (fun v => decide (v.entryNo = some "E1")) = [u] ∧
      ∃ tok, login sampleLib ⟨"s3cret"⟩ ⟨true, 9, 0⟩ ([] ++ [u]) ⟨.str "E1", .str "pw"⟩ =
        (⟨200, .session tok (castString sampleLib (.str "Alice")) []⟩, [] ++ [u]) :=
  register_then_login sampleLib ⟨"s3cret"⟩ ⟨true, 0, 0⟩ ⟨true, 9, 0⟩ [] (.str "Alice") "E1" "pw"
    (by decide) (by decide) (by decide) (fun _ h => absurd h (List.not_mem_nil _)) rfl rfl
    rfl

/-- C1 as stated fails at two inputs.  Where `entryNo` is the empty string: no document
has that `entryNo`, `name` and `password` are non-empty strings and `bcrypt.compare`
accepts, yet the request is answered 400 and nothing is added.  Where the store does not
answer: the same holds for the `entryNo` "E1". -/
theorem register_empty_entryNo :
    (∀ u ∈ ([] : Store Int), u.entryNo ≠ some "") ∧
    (∀ u ∈ ([] : Store Int), u.entryNo ≠ some "E1") ∧
    bcrypt.compare sampleLib (.str "pw") (sampleLib.bcryptHashStr "pw" 10 0) = .ok true ∧
    register sampleLib ⟨true, 0, 0⟩ [] ⟨.str "Alice", .str "", .str "pw"⟩ =
      (⟨400, .error "All fields required"⟩, []) ∧
    register sampleLib ⟨false, 0, 0⟩ [] ⟨.str "Alice", .str "E1", .str "pw"⟩ =
      (⟨400, .error "Entry No already exists"⟩, []) :=
  ⟨fun _ h => absurd h (List.not_mem_nil _), fun _ h => absurd h (List.not_mem_nil _), rfl,
    by decide, by decide⟩

/-! ## Login failures -/

/-- C2 at a request without `password`: whatever the library, for an `entryNo` that
exists the answer is 500 "Server error", for one that does not it is 401 "Invalid
Credentials". -/
theorem login_absent_password {N : Type} (L : Lib N) (penv : ProcessEnv) :
    login L penv ⟨true, 0, 0⟩ [⟨1, some "Alice", some "E1", "h", []⟩] ⟨.str "E1", .undefined⟩ =
      (⟨500, .error "Server error"⟩, [⟨1, some "Alice", some "E1", "h", []⟩]) ∧
    login L penv ⟨true, 0, 0⟩ [⟨1, some "Alice", some "E1", "h", []⟩] ⟨.str "E2", .undefined⟩ =
      (⟨401, .error "Invalid Credentials"⟩, [⟨1, some "Alice", some "E1", "h", []⟩]) := by
  constructor
  · simp [login, User.findOne, castString, bcrypt.compare]
  · simp [login, User.findOne, castString]

/-- With a string password, when the store answers, a login for an `entryNo` no document
has, or for a document whose hash `bcrypt.compare` does not accept, gets the one answer
401 "Invalid Credentials". -/
theorem login_failure_uniform {N : Type} (L : Lib N) (penv : ProcessEnv) (w : World)
    (s : Store N) (entryNo : JVal N) (p : String)
    (h : User.findOne L w s entryNo = .ok none ∨
      ∃ u, User.findOne L w s entryNo = .ok (some u) ∧
        bcrypt.compare L (.str p) u.password = .ok false) :
    login L penv w s ⟨entryNo, .str p⟩ = (⟨401, .error "Invalid Credentials"⟩, s) := by
  rcases h with h | ⟨u, h, hc⟩
  · simp [login, h]
  · simp [login, h, hc]

/-! ## An unreachable store -/

/-- C8 at an unreachable store: a well-formed register request is answered 400 "Entry No
already exists" and a book request with a verifying token 401 "Unauthorized or Session
Expired"; only login answers 500 "Server error". -/
theorem unreachable_store_responses :
    register sampleLib ⟨false, 1, 0⟩ [] ⟨.str "Alice", .str "E1", .str "pw"⟩ =
      (⟨400, .error "Entry No already exists"⟩, []) ∧
    jwt.verify sampleLib ⟨false, 1, 0⟩ (.str "ieee#s3cret") "s3cret" = .ok 1 ∧
    book sampleLib ⟨"s3cret"⟩ ⟨false, 1, 0⟩ [] ⟨.str "ieee#s3cret", .num 7⟩ =
      (⟨401, .error "Unauthorized or Session Expired"⟩, []) ∧
    login sampleLib ⟨"s3cret"⟩ ⟨false, 1, 0⟩ [] ⟨.str "E1", .str "pw"⟩ =
      (⟨500, .error "Server error"⟩, []) :=
  ⟨by decide, rfl, by decide, by decide⟩

/-! ## Tokens issued by login -/

/-- C6, as the code has it: let a login designating the document `u` succeed at time
`t0`, on a collection with distinct `_id`s.  Its token is the signature of the `_id` of `u`
with a 24-hour expiry.  Given that jsonwebtoken verifies that token to the `_id` until
`t0 + 24h` and rejects it from then on: at any time before `t0 + 24h`, on a store that
answers, a book request with that token and an `eventId` that casts to an element `x` (a
number, or `null`) is answered 200 and turns `u`, and no other document, into `u` with `x`
added; from `t0 + 24h` on, a book request with that token is answered 401 and changes
nothing. -/
theorem login_token_window {N : Type} [DecidableEq N] (L : Lib N) (penv : ProcessEnv)
    (w0 w1 w2 : World) (s : Store N) (u : User N) (lb : LoginBody N)
    (eventId lateEventId : JVal N) (x : Option N)
    (hJ : ∀ now, L.jwtVerify (L.jwtSign u.id penv.JWT_SECRET expiresIn24h w0.now)
        penv.JWT_SECRET now = if now < w0.now + expiresIn24h then some u.id else none)
    (hids : idsDistinct s)
    (hu : User.findOne L w0 s lb.entryNo = .ok (some u))
    (hlogin : (login L penv w0 s lb).1.status = 200)
    (hc : castNumber L eventId = .ok (some x))
    (hup1 : w1.dbUp = true) (h1 : w1.now < w0.now + expiresIn24h)
    (h2 : w0.now + expiresIn24h ≤ w2.now) :
    ∃ tok, login L penv w0 s lb = (⟨200, .session tok u.name u.registeredEvents⟩, s) ∧
      tok = L.jwtSign u.id penv.JWT_SECRET expiresIn24h w0.now ∧
      jwt.verify L w1 (.str tok) penv.JWT_SECRET = .ok u.id ∧
      book L penv w1 s ⟨.str tok, eventId⟩ =
        (⟨200, .message "Registered Successfully"⟩,
          s.map (fun v => if v = u then withEvent x u else v)) ∧
      x ∈ (withEvent x u).registeredEvents ∧
      book L penv w2 s ⟨.str tok, lateEventId⟩ =
        (⟨401, .error "Unauthorized or Session Expired"⟩, s) := by
  have hmem : u ∈ s := by
    unfold User.findOne at hu
    split at hu
    · simp at hu
    · injection hu with hu
      exact List.mem_of_find?_eq_some hu
  have hv1 : jwt.verify L w1 (.str (L.jwtSign u.id penv.JWT_SECRET expiresIn24h w0.now))
      penv.JWT_SECRET = .ok u.id := by
    simp [jwt.verify, hJ, h1]
  have hv2 : jwt.verify L w2 (.str (L.jwtSign u.id penv.JWT_SECRET expiresIn24h w0.now))
      penv.JWT_SECRET = .error .jwtError := by
    simp [jwt.verify, hJ, Nat.not_lt.mpr h2]
  refine ⟨L.jwtSign u.id penv.JWT_SECRET expiresIn24h w0.now, ?_, rfl, hv1, ?_,
    addToSet_mem _ x, ?_⟩
  · unfold login at hlogin ⊢
    rw [hu] at hlogin ⊢
    simp only at hlogin ⊢
    split at hlogin
    · simp at hlogin
    · simp at hlogin
    · rename_i hcmp
      simp [hcmp, jwt.sign]
  · rw [book_ok L penv w1 s _ eventId x u.id hv1 hup1 hc, updateById_eq_map _ _ _ hids]
    congr 1
    apply List.map_congr_left
    intro v hv
    by_cases hvu : v = u
    · simp [hvu]
    · have hne : v.id ≠ u.id := fun hid => hvu (eq_of_id_eq hids hmem hv hid)
      simp [hvu, hne]
  · exact book_of_verify_error L penv w2 s ⟨_, lateEventId⟩ _ hv2

theorem login_token_window_witness :
    ∃ tok,
      book sampleLib ⟨"s3cret"⟩ ⟨true, 86499, 0⟩ aliceOnly ⟨.str tok, .num 7⟩ =
        (⟨200, .message "Registered Successfully"⟩,
          aliceOnly.map
            (fun v => if v = ⟨1, some "Alice", some "E1", sampleHash "pw", []⟩
              then withEvent (some 7) ⟨1, some "Alice", some "E1", sampleHash "pw", []⟩
              else v)) ∧
      book sampleLib ⟨"s3cret"⟩ ⟨true, 86500, 0⟩ aliceOnly ⟨.str tok, .num 7⟩ =
        (⟨401, .error "Unauthorized or Session Expired"⟩, aliceOnly) :=
  match login_token_window sampleLib ⟨"s3cret"⟩ ⟨true, 100, 0⟩ ⟨true, 86499, 0⟩
      ⟨true, 86500, 0⟩ aliceOnly
      ⟨1, some "Alice", some "E1", sampleHash "pw", []⟩ ⟨.str "E1", .str "pw"⟩ (.num 7) (.num 7)
      (some 7)
      (fun now => sampleLib_jwt 1 "s3cret" expiresIn24h 100 now)
      (by simp [idsDistinct, aliceOnly]) rfl (by decide) rfl rfl (by decide) (by decide) with
  | ⟨tok, _, _, _, hbook, _, hlate⟩ => ⟨tok, hbook, hlate⟩

/-- C6 as stated fails inside the 24-hour window at two inputs.  Alice logs in at time
100 and gets the token signed for her `_id`, which verifies at time 200; at that time a
book request with that token and the integer 7 is answered 401 when the store does not
answer, and a book request with that token and the `eventId` "abc", which is no number,
is answered 401 on a store that answers; her `registeredEvents` stays empty both times. -/
theorem booking_in_window_rejected :
    (login sampleLib ⟨"s3cret"⟩ ⟨true, 100, 0⟩ aliceOnly ⟨.str "E1", .str "pw"⟩).1 =
      ⟨200, .session (sampleLib.jwtSign 1 "s3cret" expiresIn24h 100) (some "Alice") []⟩ ∧
    jwt.verify sampleLib ⟨true, 200, 0⟩
        (.str (sampleLib.jwtSign 1 "s3cret" expiresIn24h 100)) "s3cret" = .ok 1 ∧
    book sampleLib ⟨"s3cret"⟩ ⟨false, 200, 0⟩ aliceOnly
        ⟨.str (sampleLib.jwtSign 1 "s3cret" expiresIn24h 100), .num 7⟩ =
      (⟨401, .error "Unauthorized or Session Expired"⟩, aliceOnly) ∧
    book sampleLib ⟨"s3cret"⟩ ⟨true, 200, 0⟩ aliceOnly
        ⟨.str (sampleLib.jwtSign 1 "s3cret" expiresIn24h 100), .str "abc"⟩ =
      (⟨401, .error "Unauthorized or Session Expired"⟩, aliceOnly) := by
  have hl : (sampleHash "pw").length = 60 := by decide
  have hc : sampleLib.bcryptCompareStr "pw" (sampleHash "pw") = .ok true := rfl
  refine ⟨?_, ?_, ?_, ?_⟩
  · simp [login, User.findOne, aliceOnly, castString, bcrypt.compare, hl, hc, jwt.sign]
  · exact jwt_verify_str sampleLib ⟨true, 200, 0⟩ _ "s3cret" 1
      ((sampleLib_jwt 1 "s3cret" expiresIn24h 100 200).trans (if_pos (by decide)))
  · exact book_store_down sampleLib ⟨"s3cret"⟩ ⟨false, 200, 0⟩ aliceOnly _ rfl
  · exact book_cast_error sampleLib ⟨"s3cret"⟩ ⟨true, 200, 0⟩ aliceOnly
      ⟨.str (sampleLib.jwtSign 1 "s3cret" expiresIn24h 100), .str "abc"⟩ .castError rfl

/-! ## The invariant of the collection -/

/-- C9: the invariant (unique `entryNo`, no repeated value in any `registeredEvents`,
every `password` an output of the registration hashing) holds on the empty collection and
is kept by every register, login and book request, whatever the body and the outcome; and
the password a successful registration stores is the hash of the supplied one. -/
theorem store_invariant {N : Type} [DecidableEq N] (L : Lib N) :
    StoreInv L [] ∧
    (∀ (penv : ProcessEnv) (w : World) (s : Store N), StoreInv L s →
      (∀ b, StoreInv L (register L w s b).2) ∧
      (∀ b, StoreInv L (login L penv w s b).2) ∧
      (∀ b, StoreInv L (book L penv w s b).2)) ∧
    (∀ (w : World) (s : Store N) (b : RegisterBody N) (p : String),
      b.password = .str p → (register L w s b).1.status = 201 →
      ∃ u, (register L w s b).2 = s ++ [u] ∧ u.password = L.bcryptHashStr p 10 w.salt) := by
  refine ⟨⟨List.nodup_nil, fun u hu => absurd hu (List.not_mem_nil u)⟩, ?_, ?_⟩
  · intro penv w s hs
    refine ⟨?_, ?_, ?_⟩
    · intro b
      rcases register_cases L w s b with ⟨msg, h⟩ | ⟨p, _, _, _, _, hfresh, h⟩
      · rw [h]
        exact hs
      · rw [h]
        refine ⟨?_, ?_⟩
        · rw [List.map_append, List.nodup_append]
          refine ⟨hs.1, List.nodup_singleton _, ?_⟩
          intro a ha hb
          rw [List.mem_map] at ha
          obtain ⟨u, hu, hua⟩ := ha
          simp only [List.map_cons, List.map_nil, List.mem_singleton] at hb
          exact hfresh u hu (hua.trans hb)
        · intro v hv
          rw [List.mem_append, List.mem_singleton] at hv
          rcases hv with hv | rfl
          · exact hs.2 v hv
          · exact ⟨List.nodup_nil, p, w.salt, rfl⟩
    · intro b
      rw [login_store]
      exact hs
    · intro b
      rcases book_cases L penv w s b with h | ⟨id, _, _, h | ⟨x, _, h⟩⟩
      · rw [h]
        exact hs
      · rw [h]
        exact hs
      · rw [h]
        exact storeInv_updateById L id x s hs
  · intro w s b p hb h201
    rcases register_cases L w s b with ⟨msg, h⟩ | ⟨q, hq, _, _, _, _, h⟩
    · rw [h] at h201
      simp at h201
    · rw [hb] at hq
      injection hq with hq
      subst hq
      rw [h]
      exact ⟨_, rfl, rfl⟩

theorem store_invariant_witness :
    StoreInv sampleLib aliceOnly ∧
    StoreInv sampleLib
      (register sampleLib ⟨true, 0, 0⟩ aliceOnly ⟨.str "Bob", .str "E2", .str "pw2"⟩).2 ∧
    StoreInv sampleLib
      (book sampleLib ⟨"s3cret"⟩ ⟨true, 1, 0⟩ aliceOnly ⟨.str "ieee#s3cret", .null⟩).2 :=
  ⟨aliceOnly_inv,
    ((store_invariant sampleLib).2.1 ⟨"s3cret"⟩ ⟨true, 0, 0⟩ _ aliceOnly_inv).1 _,
    ((store_invariant sampleLib).2.1 ⟨"s3cret"⟩ ⟨true, 1, 0⟩ _ aliceOnly_inv).2.2 _⟩

/-! ## Documents are permanent -/

/-- C10: after any request to any of the three handlers every document present before is
still there, in place, with the same `_id`, `name`, `entryNo` and `password` and with
every event it had; login changes nothing at all; and a booking answered 200 had a token
that verified to some `_id`, and each document is either unchanged or has that `_id` and
differs at most by added events. -/
theorem documents_permanent {N : Type} [DecidableEq N] (L : Lib N) (penv : ProcessEnv)
    (w : World) (s : Store N) :
    (∀ b, Extends s (register L w s b).2) ∧
    (∀ b, (login L penv w s b).2 = s) ∧
    (∀ b, Extends s (book L penv w s b).2 ∧
      ((book L penv w s b).1.status = 200 →
        ∃ id, jwt.verify L w b.token penv.JWT_SECRET = .ok id ∧
          List.Forall₂ (fun u v => v = u ∨ (u.id = id ∧ Grows u v)) s
            (book L penv w s b).2)) := by
  have hupd : ∀ (id : Nat) (x : Option N),
      List.Forall₂ (fun u v => v = u ∨ (u.id = id ∧ Grows u v)) s
        (updateById id (withEvent x) s) := by
    intro id x
    refine (updateById_forall2 id (withEvent x) s).imp ?_
    intro u v h
    rcases h with h | ⟨h, rfl⟩
    · exact Or.inl h
    · exact Or.inr ⟨h, grows_withEvent x u⟩
  refine ⟨?_, login_store L penv w s, ?_⟩
  · intro b
    rcases register_cases L w s b with ⟨msg, h⟩ | ⟨p, _, _, _, _, _, h⟩
    · rw [h]
      exact extends_refl s
    · rw [h]
      exact ⟨s, _, rfl, List.forall₂_same.mpr (fun u _ => grows_refl u)⟩
  · intro b
    rcases book_cases L penv w s b with h | ⟨id, hv, _, h | ⟨x, _, h⟩⟩
    · rw [h]
      exact ⟨extends_refl s, fun h200 => by simp at h200⟩
    · rw [h]
      exact ⟨extends_refl s, fun _ =>
        ⟨id, hv, List.forall₂_same.mpr (fun _ _ => Or.inl rfl)⟩⟩
    · rw [h]
      refine ⟨⟨_, [], by simp, (hupd id x).imp ?_⟩, fun _ => ⟨id, hv, hupd id x⟩⟩
      intro u v huv
      rcases huv with rfl | ⟨_, hg⟩
      · exact grows_refl v
      · exact hg

theorem documents_permanent_witness :
    ∃ id, jwt.verify sampleLib ⟨true, 1, 0⟩ (.str "ieee#s3cret") "s3cret" = .ok id ∧
      List.Forall₂ (fun u v => v = u ∨ (u.id = id ∧ Grows u v)) aliceOnly
        (book sampleLib ⟨"s3cret"⟩ ⟨true, 1, 0⟩ aliceOnly ⟨.str "ieee#s3cret", .num 7⟩).2 :=
  ((documents_permanent sampleLib ⟨"s3cret"⟩ ⟨true, 1, 0⟩ aliceOnly).2.2
    ⟨.str "ieee#s3cret", .num 7⟩).2 (by decide)

end TechFest
